import Mathlib

/-!
Verification of the `python-ssas` repository (files `src/ssas_api.py`, current
revision, and `src/ssas_api/ssas_api.py`, older revision) against its
natural-language specification.

The embedding models:
 * the vendor result set (`System.Data.DataTable` filled by ADOMD) as `DataTable`:
   an ordered list of typed, named columns plus row-major cells;
 * the pandas pipeline of `_parse_DAX_result` (DBNull replacement, date-time
   conversion through the sortable round-trip string, integer widening,
   `astype`) as an `Except`-valued function `parse_DAX_result`;
 * `process_model` / `process_database` / `process_table` as functions over an
   abstract AMO environment recording which client calls succeed, returning the
   outcome together with the final connection state;
 * `set_conn_string` as pure list-of-characters template substitution.

Machine integers of the source (`System.Int64`) are modelled as `Int`; the code
performs no arithmetic on them, it only moves them between containers.
-/

namespace PySsas

instance {ε α : Type} [DecidableEq ε] [DecidableEq α] : DecidableEq (Except ε α) :=
  fun a b =>
    match a, b with
    | .ok x, .ok y =>
      if h : x = y then isTrue (by rw [h]) else isFalse (by simp [h])
    | .ok _, .error _ => isFalse (by simp)
    | .error _, .ok _ => isFalse (by simp)
    | .error x, .error y =>
      if h : x = y then isTrue (by rw [h]) else isFalse (by simp [h])

/-- External type tags of `DataTable` columns, as the `DataType.FullName`
dispatch in `_parse_DAX_result` distinguishes them: `System.Int64`,
`System.Double`, `System.String`, `System.DateTime` each have a branch and every
other type falls into the default (`"object"`) case, collapsed here into
`other`. -/
inductive DotNetType
  | int64
  | double
  | string
  | dateTime
  | other
deriving DecidableEq

/-- A `System.DateTime` value, by the components the two converters can
observe: `ToString("s")` (sortable format) renders year through second and
drops the sub-second part, kept here as `subsec`; `ToShortDateString` renders
only year, month, day. -/
structure DNDateTime where
  year : Nat
  month : Nat
  day : Nat
  hour : Nat
  minute : Nat
  second : Nat
  subsec : Nat
deriving DecidableEq

/-- Component ranges guaranteed by `System.DateTime` for every constructible
value (year 1..9999, month 1..12, day 1..31, hour 0..23, minute/second 0..59). -/
def DNDateTime.Valid (d : DNDateTime) : Prop :=
  1 ≤ d.year ∧ d.year ≤ 9999 ∧ 1 ≤ d.month ∧ d.month ≤ 12 ∧
  1 ≤ d.day ∧ d.day ≤ 31 ∧ d.hour ≤ 23 ∧ d.minute ≤ 59 ∧ d.second ≤ 59

instance (d : DNDateTime) : Decidable d.Valid := by
  unfold DNDateTime.Valid; infer_instance

/-- A cell of the vendor result set as `table.Rows[r][c]` hands it to Python:
the null marker `System.DBNull`, a 64-bit integer, a double (opaque payload
`b`: the code never computes with doubles, it only passes them through), a
string, a `System.DateTime`, or a value of any other type (opaque tag `o`). -/
inductive DNCell
  | dbnull
  | int (n : Int)
  | dbl (b : Nat)
  | str (s : String)
  | dt (d : DNDateTime)
  | other (o : Nat)
deriving DecidableEq

/-- A column of the vendor result set: `ColumnName` and `DataType`. -/
structure DNColumn where
  name : String
  dataType : DotNetType
deriving DecidableEq

/-- Default column used only as a `getD` fallback in statements. -/
def defaultCol : DNColumn := ⟨"", DotNetType.other⟩

/-- The vendor result set (`TabularResult` of the spec): ordered columns and
row-major cells, every row positionally aligned with the column list. -/
structure DataTable where
  cols : List DNColumn
  rows : List (List DNCell)
deriving DecidableEq

/-- A cell is well-typed for its column when it is the null marker or a value
of the declared type; date-time values carry the `System.DateTime` component
ranges. -/
def cellTyped (ty : DotNetType) (c : DNCell) : Bool :=
  match ty, c with
  | _, .dbnull => true
  | .int64, .int _ => true
  | .double, .dbl _ => true
  | .string, .str _ => true
  | .dateTime, .dt d => decide d.Valid
  | .other, .other _ => true
  | _, _ => false

/-- Invariants `System.Data.DataTable` guarantees for any table ADOMD fills:
every row has one cell per column, each cell is null or of the column's
declared type, and column names are unique within a table (the code addresses
columns by name in the date-time pass and in `astype`, which coincides with
positional addressing exactly because of this uniqueness). -/
def WellFormed (t : DataTable) : Prop :=
  (∀ r ∈ t.rows, r.length = t.cols.length ∧
    ∀ p ∈ t.cols.zip r, cellTyped p.1.dataType p.2 = true) ∧
  (t.cols.map (fun c => c.name)).Nodup

instance (t : DataTable) : Decidable (WellFormed t) := by
  unfold WellFormed; infer_instance

/-- Column `j` of the table read off positionally, as the row loop
`[table.Rows[r][c] for c in cols]` produces it (the `getD` default is never
used on a well-formed table). -/
def srcColumn (t : DataTable) (j : Nat) : List DNCell :=
  t.rows.map fun r => r.getD j DNCell.dbnull

/-- All columns in order: the transpose of the row-major data, matching the
DataFrame built by `pd.DataFrame.from_records(rows, columns=...)`. -/
def columnsOf (t : DataTable) : List (List DNCell) :=
  (List.range t.cols.length).map fun j => srcColumn t j

/-- A float64 value as it occurs in the converted frame. `ofInt` is the float
obtained by `astype(float)` from an `Int64` cell (float64 rounding of
magnitudes at or above 2^53 is not modelled; no claim inspects the numeric
value of a widened cell), `bits` is an opaque `System.Double` payload carried
through unchanged. -/
inductive PFloat
  | ofInt (n : Int)
  | bits (b : Nat)
deriving DecidableEq

/-- A pandas cell during and after `_parse_DAX_result`: `nan` is the float NaN
missing marker (what `np.NaN` replacement and pandas missing handling use),
`raw` a value still holding the .NET object from the table, `ts` a
`pd.Timestamp` produced by `pd.to_datetime`, and `int` / `float` / `pstr` the
results of `astype` with targets `int` / `float` / `str`. -/
inductive PdCell
  | nan
  | raw (c : DNCell)
  | ts (d : DNDateTime)
  | int (n : Int)
  | float (x : PFloat)
  | pstr (s : String)
deriving DecidableEq

/-- Pandas missing test (`isna`): true exactly on the NaN marker. (`NaT` is
also missing in pandas, but in this pipeline a `ts` cell is only ever produced
from a successfully parsed string, never from a missing value.) -/
def isna : PdCell → Bool
  | .nan => true
  | _ => false

/-- The Python exceptions the modelled pipeline can raise. -/
inductive PdErr
  | attributeError
  | parseError
  | valueError
deriving DecidableEq

/-- Target dtype a column is assigned by `col_types`: `int`, `float`, `str`, or
the string `"object"` for every unmapped source type. -/
inductive PdType
  | tint
  | tfloat
  | tstr
  | tobj
deriving DecidableEq

/-- The converted output (`ConvertedTable` of the spec): column names in order,
the final dtype assigned to each column, and the converted cells,
column-major. -/
structure PdFrame where
  colNames : List String
  colTypes : List PdType
  cols : List (List PdCell)
deriving DecidableEq

/-- Sequential effectful map with early exit on the first error, the way a
Python loop or a pandas element-wise application raises at the first failing
element. -/
def exMapM {α β ε : Type} (f : α → Except ε β) : List α → Except ε (List β)
  | [] => .ok []
  | x :: xs =>
    match f x with
    | .error e => .error e
    | .ok y =>
      match exMapM f xs with
      | .error e => .error e
      | .ok ys => .ok (y :: ys)

/-- The `applymap` replacing `System.DBNull` instances by `np.NaN` and leaving
every other cell untouched. -/
def nullToNan (c : DNCell) : PdCell :=
  match c with
  | .dbnull => .nan
  | c => .raw c

/-- Decimal digit character. -/
def digitChar (n : Nat) : Char := Char.ofNat (48 + n)

/-- Numeric value of a digit character. -/
def dval (c : Char) : Nat := c.toNat - 48

/-- Two-digit zero-padded decimal rendering (for date-time fields below 100). -/
def pad2 (n : Nat) : List Char := [digitChar (n / 10 % 10), digitChar (n % 10)]

/-- Four-digit zero-padded decimal rendering (for years below 10000). -/
def pad4 (n : Nat) : List Char :=
  [digitChar (n / 1000 % 10), digitChar (n / 100 % 10),
   digitChar (n / 10 % 10), digitChar (n % 10)]

/-- `DateTime.ToString("s")`: the culture-invariant sortable format
`yyyy-MM-ddTHH:mm:ss`; sub-second ticks are not rendered. -/
def sortableString (d : DNDateTime) : List Char :=
  pad4 d.year ++ '-' :: (pad2 d.month ++ '-' :: (pad2 d.day ++
    'T' :: (pad2 d.hour ++ ':' :: (pad2 d.minute ++ ':' :: pad2 d.second))))

/-- Parsing of the sortable format, the only string shape this pipeline ever
feeds to `pd.to_datetime` (the real parser accepts more formats; they cannot
reach it here). -/
def parseSortable : List Char → Option DNDateTime
  | [y3, y2, y1, y0, s1, m1, m0, s2, d1, d0, s3, h1, h0, s4, i1, i0, s5, e1, e0] =>
    if y3.isDigit && y2.isDigit && y1.isDigit && y0.isDigit &&
       m1.isDigit && m0.isDigit && d1.isDigit && d0.isDigit &&
       h1.isDigit && h0.isDigit && i1.isDigit && i0.isDigit &&
       e1.isDigit && e0.isDigit &&
       (s1 == '-') && (s2 == '-') && (s3 == 'T') && (s4 == ':') && (s5 == ':')
    then some ⟨1000 * dval y3 + 100 * dval y2 + 10 * dval y1 + dval y0,
               10 * dval m1 + dval m0, 10 * dval d1 + dval d0,
               10 * dval h1 + dval h0, 10 * dval i1 + dval i0,
               10 * dval e1 + dval e0, 0⟩
    else none
  | _ => none

/-- The lambda of `df.loc[:, dtt].map(lambda x: x.ToString('s'))` applied to
one cell. `Series.map` with the default `na_action=None` passes NaN cells to
the lambda too, where the Python float has no `ToString` attribute and an
`AttributeError` is raised; a non-DateTime object in a DateTime-declared
column cannot occur on a well-formed table and is modelled as the same
failure. -/
def toString_s (c : PdCell) : Except PdErr (List Char) :=
  match c with
  | .raw (.dt d) => .ok (sortableString d)
  | _ => .error .attributeError

/-- `pd.to_datetime` on one rendered string: parse of the sortable format. -/
def pd_to_datetime1 (s : List Char) : Except PdErr PdCell :=
  match parseSortable s with
  | some d => .ok (.ts d)
  | none => .error .parseError

/-- The body of the date-time loop for one column: if every cell is missing the
column is skipped (`if not df.loc[:, dtt].isna().all()`), otherwise every cell
is rendered with `ToString('s')` and the strings are parsed by
`pd.to_datetime`. -/
def convertDtColumn (cells : List PdCell) : Except PdErr (List PdCell) :=
  if cells.all (fun c => isna c) then .ok cells
  else
    match exMapM toString_s cells with
    | .error e => .error e
    | .ok strs => exMapM pd_to_datetime1 strs

/-- The date-time pass applied to one (column, cells) pair: only columns whose
declared type is `System.DateTime` are touched. -/
def dtPass (p : DNColumn × List PdCell) : Except PdErr (List PdCell) :=
  if p.1.dataType = DotNetType.dateTime then convertDtColumn p.2 else .ok p.2

/-- `types_map` / `col_types`: `System.Int64 → int`, `System.Double → float`,
`System.String → str`, everything else (including `System.DateTime`) falls to
the `"object"` default. -/
def typesMap : DotNetType → PdType
  | .int64 => .tint
  | .double => .tfloat
  | .string => .tstr
  | _ => .tobj

/-- The widening step: an `int` target column whose cells include a missing
value is retargeted to `float` (`df.isna().any(axis=0)` intersected with the
`int` columns); no other target is changed. -/
def widenType (ty : PdType) (cells : List PdCell) : PdType :=
  if ty = PdType.tint ∧ cells.any isna then PdType.tfloat else ty

/-- Python `str()` of a cell, as `astype(str)` applies it element-wise: NaN
becomes the literal string `"nan"`, a string stays itself, an integer prints
in decimal. The code only sends `System.String`-declared columns (cells `nan`
or `raw str`) through `astype(str)`; the remaining branch is an unreachable
placeholder representation. -/
def pyStr : PdCell → String
  | .nan => "nan"
  | .raw (.str s) => s
  | .raw (.int n) => toString n
  | _ => "object"

/-- `astype` on one cell for each target dtype: `astype(int)` keeps integers
and raises `ValueError` on NaN (or any non-integer object); `astype(float)`
keeps NaN, converts integers, passes doubles through; `astype(str)` applies
`str()` and never fails; target `"object"` leaves the cell unchanged. -/
def astypeCell : PdType → PdCell → Except PdErr PdCell
  | .tint, .raw (.int n) => .ok (.int n)
  | .tint, _ => .error .valueError
  | .tfloat, .nan => .ok .nan
  | .tfloat, .raw (.int n) => .ok (.float (.ofInt n))
  | .tfloat, .raw (.dbl b) => .ok (.float (.bits b))
  | .tfloat, _ => .error .valueError
  | .tstr, c => .ok (.pstr (pyStr c))
  | .tobj, c => .ok c

/-- The final `df.astype(col_types)` applied to one (target, cells) pair. -/
def astypePass (p : PdType × List PdCell) : Except PdErr (List PdCell) :=
  exMapM (astypeCell p.1) p.2

/-- The DataFrame after the DBNull replacement `applymap`, column-major. -/
def df1 (t : DataTable) : List (List PdCell) :=
  (columnsOf t).map fun col => col.map nullToNan

/-- The final `col_types` assignment: the mapped target of each declared type,
with the integer/missing widening applied against the converted cells. -/
def colTypesOf (cols : List DNColumn) (df2 : List (List PdCell)) : List PdType :=
  (cols.zip df2).map fun p => widenType (typesMap p.1.dataType) p.2

/-- `_parse_DAX_result`: build the frame positionally, replace DBNull by NaN,
run the date-time conversion loop over the DateTime-declared columns, compute
the target dtypes with integer widening, and apply `astype` — each phase in
the source's order, raising at the first failing column. -/
def parse_DAX_result (t : DataTable) : Except PdErr PdFrame :=
  match exMapM dtPass (t.cols.zip (df1 t)) with
  | .error e => .error e
  | .ok df2 =>
    match exMapM astypePass ((colTypesOf t.cols df2).zip df2) with
    | .error e => .error e
    | .ok df3 => .ok ⟨t.cols.map (fun c => c.name), colTypesOf t.cols df2, df3⟩

/-! ## The older revision's converter (`src/ssas_api/ssas_api.py`, `get_DAX`) -/

/-- A cell of the older revision's DataFrame: Python `None` for DBNull, a
`pd.Timestamp` for date-times, the raw value otherwise. -/
inductive OldCell
  | pynone
  | ts (d : DNDateTime)
  | raw (c : DNCell)
deriving DecidableEq

/-- Unpadded decimal rendering for values below 100, as the short date format
`M/d/yyyy` renders month and day. -/
def render2 (n : Nat) : List Char :=
  if n < 10 then [digitChar n] else [digitChar (n / 10), digitChar (n % 10)]

/-- `DateTime.ToShortDateString()` under the default `M/d/yyyy` pattern: the
date components only, the time of day is not rendered. (The separator and
field order are culture-dependent; the rendered information — the date and
nothing else — is not.) -/
def toShortDateString (d : DNDateTime) : List Char :=
  render2 d.month ++ '/' :: (render2 d.day ++ '/' :: pad4 d.year)

/-- Decimal parse of one short-date field at the widths the formatter emits. -/
def parseDigits : List Char → Option Nat
  | [a] => if a.isDigit then some (dval a) else none
  | [a, b] =>
    if a.isDigit && b.isDigit then some (10 * dval a + dval b) else none
  | [a, b, c, d] =>
    if a.isDigit && b.isDigit && c.isDigit && d.isDigit then
      some (1000 * dval a + 100 * dval b + 10 * dval c + dval d)
    else none
  | _ => none

/-- Split at every slash, the tokenization `pd.Timestamp` applies to a
`M/d/yyyy` string. -/
def splitSlash : List Char → List (List Char)
  | [] => [[]]
  | c :: cs =>
    if c = '/' then [] :: splitSlash cs
    else
      match splitSlash cs with
      | [] => [[c]]
      | p :: ps => (c :: p) :: ps

/-- `pd.Timestamp` applied to a short date string: month/day/year parsed from
the three slash-separated fields, time of day zero; anything else raises. -/
def pdTimestampShort (s : List Char) : Except PdErr DNDateTime :=
  match splitSlash s with
  | [ms, ds, ys] =>
    match parseDigits ms, parseDigits ds, parseDigits ys with
    | some m, some d, some y => .ok ⟨y, m, d, 0, 0, 0, 0⟩
    | _, _, _ => .error .valueError
  | _ => .error .valueError

/-- One cell of the older revision's row loop: DBNull to `None`, a DateTime to
`pd.Timestamp(x.ToShortDateString())`, anything else kept as-is. -/
def oldConvertCell (c : DNCell) : Except PdErr OldCell :=
  match c with
  | .dbnull => .ok .pynone
  | .dt d =>
    match pdTimestampShort (toShortDateString d) with
    | .ok x => .ok (.ts x)
    | .error e => .error e
  | c => .ok (.raw c)

/-! ## `set_conn_string` -/

/-- `set_conn_string`: pure template substitution of the four fields into the
provider connection string, modelled on lists of characters. -/
def set_conn_string (server db_name username password : List Char) : List Char :=
  ("Provider=MSOLAP;Data Source=").data ++ server ++
  (";Initial Catalog=").data ++ db_name ++
  (";User ID=").data ++ username ++
  (";Password=").data ++ password ++
  (";Persist Security Info=True;Impersonation Level=Impersonate").data

/-- Number of positions of `s` at which `pat` occurs as a contiguous
substring. -/
def countOccs (pat s : List Char) : Nat :=
  (s.tails.filter (fun t => pat.isPrefixOf t)).length

/-! ## `process_model` and its wrappers -/

/-- Abstract behaviour of the AMO client for one `process_model` call: whether
`Connect` succeeds, the database name resolves, `Tables.Find` finds the table,
`RequestRefresh` succeeds, `SaveChanges` succeeds, and whether the commit's
impact is empty. -/
structure AMOEnv where
  connectOk : Bool
  dbFound : Bool
  tableFound : Bool
  refreshOk : Bool
  saveOk : Bool
  impactEmpty : Bool
deriving DecidableEq

/-- The Python exceptions `process_model` can raise: the item-type assertion,
the missing-item `ValueError`, and the errors surfaced by the client calls
(`refresh_dict[refresh_type]` raises `KeyError`; a failed database lookup and
a `Tables.Find` miss surface when the null result is used). -/
inductive ProcErr
  | assertionError
  | valueError
  | connectError
  | dbNotFound
  | tableNotFound
  | keyError
  | refreshError
  | saveError
deriving DecidableEq

/-- Outcome of one `process_model` call: the raised error or success,
whether `AMOServer.Connect` was reached, and whether the connection is still
open when control leaves the function. -/
structure ProcOutcome where
  result : Except ProcErr Unit
  connectCalled : Bool
  connected : Bool
deriving DecidableEq

/-- Python falsiness of the optional `item` argument: `None` and the empty
string are falsy (`not item`). -/
def pyFalsy (item : Option String) : Bool :=
  match item with
  | none => true
  | some s => s = ""

/-- Python `str.lower()` on the ASCII item-type arguments the code compares:
character-wise lowercasing. -/
def pyLower (s : String) : String := ⟨s.data.map Char.toLower⟩

/-- `process_model`, straight-line as in the source: the assertion on
`item_type.lower()`, the `ValueError` for a missing table name, `Connect`,
the database lookup, the per-scope `RequestRefresh` (whose
`refresh_dict[refresh_type]` argument is evaluated after the table lookup and
before the refresh call), `SaveChanges`, and `Disconnect` — with no
try/finally, so any raise after a successful `Connect` leaves the connection
open. -/
def process_model (env : AMOEnv) (connection_string db_name refresh_type item_type : String)
    (item : Option String) : ProcOutcome :=
  if ¬ (pyLower item_type = "table" ∨ pyLower item_type = "model") then
    ⟨.error .assertionError, false, false⟩
  else if pyLower item_type = "table" ∧ pyFalsy item then
    ⟨.error .valueError, false, false⟩
  else if ¬ env.connectOk then
    ⟨.error .connectError, true, false⟩
  else if ¬ env.dbFound then
    ⟨.error .dbNotFound, true, true⟩
  else if pyLower item_type = "table" then
    if ¬ env.tableFound then ⟨.error .tableNotFound, true, true⟩
    else if ¬ (refresh_type = "full") then ⟨.error .keyError, true, true⟩
    else if ¬ env.refreshOk then ⟨.error .refreshError, true, true⟩
    else if ¬ env.saveOk then ⟨.error .saveError, true, true⟩
    else ⟨.ok (), true, false⟩
  else
    if ¬ (refresh_type = "full") then ⟨.error .keyError, true, true⟩
    else if ¬ env.refreshOk then ⟨.error .refreshError, true, true⟩
    else if ¬ env.saveOk then ⟨.error .saveError, true, true⟩
    else ⟨.ok (), true, false⟩

/-! ## Basic lemmas about the effectful map -/

theorem exMapM_ok_length {α β ε : Type} {f : α → Except ε β} :
    ∀ {l : List α} {ys : List β}, exMapM f l = .ok ys → ys.length = l.length := by
  intro l
  induction l with
  | nil =>
    intro ys h
    simp only [exMapM] at h
    cases h
    rfl
  | cons x xs ih =>
    intro ys h
    simp only [exMapM] at h
    cases hfx : f x with
    | error e => rw [hfx] at h; cases h
    | ok y =>
      rw [hfx] at h
      cases hxs : exMapM f xs with
      | error e => rw [hxs] at h; cases h
      | ok ys0 =>
        rw [hxs] at h
        cases h
        simp [ih hxs]

theorem exMapM_ok_getElem {α β ε : Type} {f : α → Except ε β} :
    ∀ {l : List α} {ys : List β}, exMapM f l = .ok ys →
      ∀ i (hi : i < l.length) (hi2 : i < ys.length), f l[i] = .ok ys[i] := by
  intro l
  induction l with
  | nil =>
    intro ys h i hi
    simp at hi
  | cons x xs ih =>
    intro ys h i hi hi2
    simp only [exMapM] at h
    cases hfx : f x with
    | error e => rw [hfx] at h; cases h
    | ok y =>
      rw [hfx] at h
      cases hxs : exMapM f xs with
      | error e => rw [hxs] at h; cases h
      | ok ys0 =>
        rw [hxs] at h
        cases h
        cases i with
        | zero => simpa using hfx
        | succ i =>
          simp only [List.getElem_cons_succ]
          exact ih hxs i (by simpa using hi) (by simpa using hi2)

theorem exMapM_ok_of_out {α β ε : Type} {f : α → Except ε β} :
    ∀ (l : List α) (out : Nat → β),
      (∀ i (hi : i < l.length), f l[i] = .ok (out i)) →
      exMapM f l = .ok ((List.range l.length).map out) := by
  intro l
  induction l with
  | nil =>
    intro out h
    rfl
  | cons x xs ih =>
    intro out h
    have h0 : f x = .ok (out 0) := by simpa using h 0 (by simp)
    have hxs : exMapM f xs = .ok ((List.range xs.length).map fun i => out (i + 1)) :=
      ih (fun i => out (i + 1)) (fun i hi => by simpa using h (i + 1) (by simpa using hi))
    simp only [exMapM, h0, hxs, List.length_cons, List.range_succ_eq_map,
      List.map_cons, List.map_map]
    rfl

theorem exMapM_ok_of_mem {α β ε : Type} {f : α → Except ε β} {g : α → β} :
    ∀ (l : List α), (∀ x ∈ l, f x = .ok (g x)) → exMapM f l = .ok (l.map g) := by
  intro l
  induction l with
  | nil => intro _; rfl
  | cons x xs ih =>
    intro h
    simp only [exMapM, h x (by simp), ih (fun y hy => h y (by simp [hy])), List.map_cons]

theorem exMapM_not_ok {α β ε : Type} {f : α → Except ε β} {x : α} :
    ∀ {l : List α}, x ∈ l → (∀ y, f x ≠ .ok y) → ∀ ys, exMapM f l ≠ .ok ys := by
  intro l
  induction l with
  | nil => intro hx; cases hx
  | cons a as ih =>
    intro hx hfx ys h
    simp only [exMapM] at h
    cases hfa : f a with
    | error e => rw [hfa] at h; cases h
    | ok y =>
      rw [hfa] at h
      cases has : exMapM f as with
      | error e => rw [has] at h; cases h
      | ok ys0 =>
        rw [has] at h
        rcases List.mem_cons.mp hx with hax | hmem
        · exact hfx y (hax ▸ hfa)
        · exact ih hmem hfx ys0 has

/-! ## Decimal rendering round-trips -/

theorem dval_digitChar {k : Nat} (hk : k < 10) : dval (digitChar k) = k := by
  interval_cases k <;> decide

theorem isDigit_digitChar {k : Nat} (hk : k < 10) : (digitChar k).isDigit = true := by
  interval_cases k <;> decide

theorem digitChar_ne_slash {k : Nat} (hk : k < 10) : digitChar k ≠ '/' := by
  interval_cases k <;> decide

theorem isDigit_digitChar_mod (x : Nat) : (digitChar (x % 10)).isDigit = true :=
  isDigit_digitChar (Nat.mod_lt x (by omega))

theorem dval_digitChar_mod (x : Nat) : dval (digitChar (x % 10)) = x % 10 :=
  dval_digitChar (Nat.mod_lt x (by omega))

theorem parseSortable_sortableString {d : DNDateTime} (hv : d.Valid) :
    parseSortable (sortableString d) =
      some ⟨d.year, d.month, d.day, d.hour, d.minute, d.second, 0⟩ := by
  obtain ⟨h1, h2, h3, h4, h5, h6, h7, h8, h9⟩ := hv
  simp only [sortableString, pad4, pad2, List.cons_append, List.nil_append, parseSortable,
    isDigit_digitChar_mod, dval_digitChar_mod, Bool.and_self, Bool.true_and, beq_self_eq_true,
    if_true, Option.some.injEq, DNDateTime.mk.injEq]
  and_intros <;> first | trivial | omega

theorem splitSlash_no_slash : ∀ (a : List Char), '/' ∉ a → splitSlash a = [a] := by
  intro a
  induction a with
  | nil => intro _; rfl
  | cons c cs ih =>
    intro h
    have hc : ¬ (c = '/') := by simp at h; tauto
    have hcs : '/' ∉ cs := by simp at h; tauto
    simp only [splitSlash, if_neg hc, ih hcs]

theorem splitSlash_append : ∀ (a r : List Char), '/' ∉ a →
    splitSlash (a ++ '/' :: r) = a :: splitSlash r := by
  intro a
  induction a with
  | nil =>
    intro r _
    simp [splitSlash]
  | cons c cs ih =>
    intro r h
    have hc : ¬ (c = '/') := by simp at h; tauto
    have hcs : '/' ∉ cs := by simp at h; tauto
    simp only [List.cons_append, splitSlash, if_neg hc]
    rw [show splitSlash (cs.append ('/' :: r)) = cs :: splitSlash r from ih r hcs]

theorem slash_not_mem_pad4 (n : Nat) : '/' ∉ pad4 n := by
  simp only [pad4, List.mem_cons, List.not_mem_nil]
  intro h
  rcases h with h | h | h | h | h <;>
    first
      | exact digitChar_ne_slash (Nat.mod_lt _ (by omega)) h.symm
      | cases h

theorem slash_not_mem_render2 (n : Nat) (hn : n < 100) : '/' ∉ render2 n := by
  simp only [render2]
  by_cases h : n < 10
  · simp only [if_pos h, List.mem_singleton]
    intro hc
    exact digitChar_ne_slash h hc.symm
  · simp only [if_neg h, List.mem_cons, List.not_mem_nil]
    intro hc
    rcases hc with hc | hc | hc
    · exact digitChar_ne_slash (by omega) hc.symm
    · exact digitChar_ne_slash (Nat.mod_lt _ (by omega)) hc.symm
    · cases hc

theorem parseDigits_render2 (n : Nat) (hn : n < 100) : parseDigits (render2 n) = some n := by
  simp only [render2]
  by_cases h : n < 10
  · simp only [if_pos h, parseDigits, isDigit_digitChar h, if_true, dval_digitChar h]
  · have h10 : n / 10 < 10 := by omega
    simp only [if_neg h, parseDigits, isDigit_digitChar h10, isDigit_digitChar_mod,
      Bool.and_self, if_true, dval_digitChar h10, dval_digitChar_mod, Option.some.injEq]
    omega

theorem parseDigits_pad4 (n : Nat) (hn : n < 10000) : parseDigits (pad4 n) = some n := by
  simp only [pad4, parseDigits, isDigit_digitChar_mod, Bool.and_self, if_true,
    dval_digitChar_mod, Option.some.injEq]
  omega

theorem pdTimestampShort_toShortDateString {d : DNDateTime} (hv : d.Valid) :
    pdTimestampShort (toShortDateString d) = .ok ⟨d.year, d.month, d.day, 0, 0, 0, 0⟩ := by
  obtain ⟨h1, h2, h3, h4, h5, h6, h7, h8, h9⟩ := hv
  have hm : '/' ∉ render2 d.month := slash_not_mem_render2 _ (by omega)
  have hd : '/' ∉ render2 d.day := slash_not_mem_render2 _ (by omega)
  simp only [pdTimestampShort, toShortDateString, splitSlash_append _ _ hm,
    splitSlash_append _ _ hd, splitSlash_no_slash _ (slash_not_mem_pad4 d.year),
    parseDigits_render2 d.month (by omega),
    parseDigits_render2 d.day (by omega),
    parseDigits_pad4 d.year (by omega)]

/-! ## Structure of the converter's result -/

theorem length_columnsOf (t : DataTable) : (columnsOf t).length = t.cols.length := by
  simp [columnsOf]

theorem length_df1 (t : DataTable) : (df1 t).length = t.cols.length := by
  simp [df1, length_columnsOf]

theorem getElem_df1 (t : DataTable) {j : Nat} (hj : j < (df1 t).length) :
    (df1 t)[j] = (srcColumn t j).map nullToNan := by
  simp [df1, columnsOf]

theorem length_colTypesOf {cols : List DNColumn} {df2 : List (List PdCell)}
    (h : df2.length = cols.length) : (colTypesOf cols df2).length = cols.length := by
  simp [colTypesOf, List.length_zip, h]

theorem getElem_colTypesOf {cols : List DNColumn} {df2 : List (List PdCell)} {j : Nat}
    (hj : j < (colTypesOf cols df2).length) (hj1 : j < cols.length) (hj2 : j < df2.length) :
    (colTypesOf cols df2)[j] = widenType (typesMap cols[j].dataType) df2[j] := by
  simp [colTypesOf, List.getElem_zip]

/-- Everything a successful `_parse_DAX_result` run determines, column by
column: the names are the source names in order, and for every column index
there is an intermediate (post date-time pass) cell list from which the final
dtype and the final cells are computed. -/
theorem parse_ok_spec {t : DataTable} {frame : PdFrame}
    (h : parse_DAX_result t = .ok frame) :
    frame.colNames = t.cols.map (fun c => c.name) ∧
    frame.colTypes.length = t.cols.length ∧
    frame.cols.length = t.cols.length ∧
    ∀ j, j < t.cols.length →
      ∃ dcol : List PdCell,
        dtPass (t.cols.getD j defaultCol, (srcColumn t j).map nullToNan) = .ok dcol ∧
        frame.colTypes.getD j PdType.tobj =
          widenType (typesMap (t.cols.getD j defaultCol).dataType) dcol ∧
        exMapM (astypeCell (frame.colTypes.getD j PdType.tobj)) dcol =
          .ok (frame.cols.getD j []) := by
  unfold parse_DAX_result at h
  split at h
  · exact absurd h (by simp)
  · rename_i df2 h2
    split at h
    · exact absurd h (by simp)
    · rename_i df3 h3
      injection h with h
      subst h
      have hzlen : (t.cols.zip (df1 t)).length = t.cols.length := by
        simp [List.length_zip, length_df1]
      have hdf2 : df2.length = t.cols.length := by
        rw [exMapM_ok_length h2, hzlen]
      have htys : (colTypesOf t.cols df2).length = t.cols.length := length_colTypesOf hdf2
      have hz2len : ((colTypesOf t.cols df2).zip df2).length = t.cols.length := by
        simp [List.length_zip, htys, hdf2]
      have hdf3 : df3.length = t.cols.length := by
        rw [exMapM_ok_length h3, hz2len]
      refine ⟨rfl, htys, hdf3, ?_⟩
      intro j hj
      have hjz : j < (t.cols.zip (df1 t)).length := by omega
      have hjd : j < df2.length := by omega
      have hjt : j < (colTypesOf t.cols df2).length := by omega
      have hjz2 : j < ((colTypesOf t.cols df2).zip df2).length := by omega
      have hj3 : j < df3.length := by omega
      refine ⟨df2[j], ?_, ?_, ?_⟩
      · have hd := exMapM_ok_getElem h2 j hjz hjd
        rw [List.getElem_zip, getElem_df1 t (by rw [length_df1]; exact hj)] at hd
        rw [List.getD_eq_getElem t.cols defaultCol hj]
        exact hd
      · rw [List.getD_eq_getElem _ PdType.tobj (by simpa [htys] using hj),
          List.getD_eq_getElem t.cols defaultCol hj]
        exact getElem_colTypesOf hjt hj hjd
      · have ha := exMapM_ok_getElem h3 j hjz2 hj3
        rw [List.getElem_zip] at ha
        simp only [astypePass] at ha
        rw [List.getD_eq_getElem _ PdType.tobj (by simpa [htys] using hj),
          List.getD_eq_getElem _ ([] : List PdCell) (by simpa [hdf3] using hj)]
        exact ha

/-! ## Successful runs, described column by column

The following definitions are not part of the embedding of the source; they
describe the output a successful run produces for each column and are used to
state and prove the success lemmas. -/

/-- Truncation to whole seconds: what the sortable-string round trip preserves. -/
def tsTrunc (d : DNDateTime) : DNDateTime :=
  ⟨d.year, d.month, d.day, d.hour, d.minute, d.second, 0⟩

/-- The string `ToString("s")` produces for a date-time cell (junk elsewhere). -/
def strOf (c : PdCell) : List Char :=
  match c with
  | .raw (.dt d) => sortableString d
  | _ => []

/-- The cell `pd.to_datetime` produces for one rendered string (junk on a
parse failure, which the success lemmas exclude). -/
def parseOf (s : List Char) : PdCell :=
  match parseSortable s with
  | some d => .ts d
  | none => .nan

/-- What the date-time pass makes of one convertible cell. -/
def dtCellOut (c : PdCell) : PdCell :=
  match c with
  | .raw (.dt d) => .ts (tsTrunc d)
  | c => c

/-- What the date-time pass makes of one date-time column that does not raise. -/
def dtColOut (cells : List PdCell) : List PdCell :=
  if cells.all (fun c => isna c) then cells else cells.map dtCellOut

/-- The post date-time-pass cells of column `j`. -/
def dOut (t : DataTable) (j : Nat) : List PdCell :=
  if (t.cols.getD j defaultCol).dataType = DotNetType.dateTime then
    dtColOut ((srcColumn t j).map nullToNan)
  else (srcColumn t j).map nullToNan

/-- The final dtype of column `j` on a successful run. -/
def tyOut (t : DataTable) (j : Nat) : PdType :=
  widenType (typesMap (t.cols.getD j defaultCol).dataType) (dOut t j)

/-- The cell `astype` produces (its input where `astype` would raise, which
the success lemmas exclude). -/
def astypeOut (ty : PdType) (c : PdCell) : PdCell :=
  match astypeCell ty c with
  | .ok y => y
  | .error _ => c

/-- The final cells of column `j` on a successful run. -/
def aOut (t : DataTable) (j : Nat) : List PdCell :=
  (dOut t j).map (astypeOut (tyOut t j))

theorem widenType_non_tint {ty : PdType} (cells : List PdCell) (h : ty ≠ PdType.tint) :
    widenType ty cells = ty := by
  simp [widenType, h]

theorem widenType_tint_any {cells : List PdCell} (h : cells.any isna = true) :
    widenType PdType.tint cells = PdType.tfloat := by
  simp [widenType, h]

theorem widenType_tint_none {cells : List PdCell} (h : cells.any isna = false) :
    widenType PdType.tint cells = PdType.tint := by
  simp [widenType, h]

theorem widenType_nil (ty : PdType) : widenType ty [] = ty := by
  simp [widenType]

theorem nullToNan_eq_nan_iff (c : DNCell) : nullToNan c = PdCell.nan ↔ c = DNCell.dbnull := by
  cases c <;> simp [nullToNan]

theorem isna_nullToNan (c : DNCell) : isna (nullToNan c) = true ↔ c = DNCell.dbnull := by
  cases c <;> simp [nullToNan, isna]

theorem cellTyped_int64 {c : DNCell} (h : cellTyped DotNetType.int64 c = true) :
    c = DNCell.dbnull ∨ ∃ n, c = DNCell.int n := by
  cases c <;> simp_all [cellTyped]

theorem cellTyped_double {c : DNCell} (h : cellTyped DotNetType.double c = true) :
    c = DNCell.dbnull ∨ ∃ b, c = DNCell.dbl b := by
  cases c <;> simp_all [cellTyped]

theorem cellTyped_dt {c : DNCell} (h : cellTyped DotNetType.dateTime c = true) :
    c = DNCell.dbnull ∨ ∃ d, c = DNCell.dt d ∧ d.Valid := by
  cases c <;> simp_all [cellTyped]

/-- On a well-formed table, every cell of column `j` is well-typed for that
column's declared type. -/
theorem wf_srcColumn {t : DataTable} (hwf : WellFormed t) {j : Nat} (hj : j < t.cols.length) :
    ∀ c ∈ srcColumn t j, cellTyped (t.cols.getD j defaultCol).dataType c = true := by
  intro c hc
  simp only [srcColumn, List.mem_map] at hc
  obtain ⟨r, hr, hcr⟩ := hc
  obtain ⟨hlen, hcells⟩ := hwf.1 r hr
  have hjr : j < r.length := by omega
  rw [List.getD_eq_getElem r _ hjr] at hcr
  have hmem : (t.cols[j], r[j]) ∈ t.cols.zip r := by
    rw [List.mem_iff_getElem]
    exact ⟨j, by simp [List.length_zip]; omega, by rw [List.getElem_zip]⟩
  have hty := hcells _ hmem
  rw [List.getD_eq_getElem t.cols _ hj]
  rw [← hcr]
  exact hty

/-- On a well-formed table whose date-time column `j` is either entirely
missing or entirely present, the date-time pass succeeds on column `j` and
produces `dOut`. -/
theorem dtPass_ok {t : DataTable} (hwf : WellFormed t) {j : Nat} (hj : j < t.cols.length)
    (hun : (t.cols.getD j defaultCol).dataType = DotNetType.dateTime →
      (∀ c ∈ srcColumn t j, c = DNCell.dbnull) ∨ (∀ c ∈ srcColumn t j, c ≠ DNCell.dbnull)) :
    dtPass (t.cols.getD j defaultCol, (srcColumn t j).map nullToNan) = .ok (dOut t j) := by
  by_cases hdt : (t.cols.getD j defaultCol).dataType = DotNetType.dateTime
  · unfold dtPass dOut
    rw [if_pos hdt, if_pos hdt]
    unfold convertDtColumn dtColOut
    by_cases hall : ((srcColumn t j).map nullToNan).all (fun c => isna c) = true
    · rw [if_pos hall, if_pos hall]
    · rw [if_neg hall, if_neg hall]
      have hnn : ∀ c ∈ srcColumn t j, c ≠ DNCell.dbnull := by
        rcases hun hdt with hL | hR
        · exfalso
          apply hall
          rw [List.all_eq_true]
          intro x hx
          rw [List.mem_map] at hx
          obtain ⟨c, hc, rfl⟩ := hx
          rw [hL c hc]
          rfl
        · exact hR
      have hdtcells : ∀ x ∈ (srcColumn t j).map nullToNan, ∃ d, x = .raw (.dt d) ∧ d.Valid := by
        intro x hx
        rw [List.mem_map] at hx
        obtain ⟨c, hc, rfl⟩ := hx
        rcases cellTyped_dt (hdt ▸ wf_srcColumn hwf hj c hc) with h0 | ⟨d, rfl, hd⟩
        · exact absurd h0 (hnn c hc)
        · exact ⟨d, rfl, hd⟩
      have h1 : exMapM toString_s ((srcColumn t j).map nullToNan) =
          .ok (((srcColumn t j).map nullToNan).map strOf) := by
        apply exMapM_ok_of_mem
        intro x hx
        obtain ⟨d, rfl, hd⟩ := hdtcells x hx
        rfl
      have h2 : exMapM pd_to_datetime1 ((((srcColumn t j).map nullToNan)).map strOf) =
          .ok (((((srcColumn t j).map nullToNan)).map strOf).map parseOf) := by
        apply exMapM_ok_of_mem
        intro s hs
        rw [List.mem_map] at hs
        obtain ⟨x, hx, rfl⟩ := hs
        obtain ⟨d, rfl, hd⟩ := hdtcells x hx
        simp [strOf, pd_to_datetime1, parseOf, parseSortable_sortableString hd]
      split
      · rename_i e hE
        rw [h1] at hE
        cases hE
      · rename_i strs hE
        rw [h1] at hE
        injection hE with hE
        subst hE
        rw [h2, List.map_map]
        congr 1
        apply List.map_congr_left
        intro x hx
        obtain ⟨d, rfl, hd⟩ := hdtcells x hx
        simp [strOf, parseOf, dtCellOut, Function.comp, parseSortable_sortableString hd,
          tsTrunc]
  · unfold dtPass dOut
    rw [if_neg hdt, if_neg hdt]

theorem astypeCell_ok_tstr (c : PdCell) :
    astypeCell PdType.tstr c = .ok (astypeOut PdType.tstr c) := by
  cases c <;> rfl

theorem astypeCell_ok_tobj (c : PdCell) :
    astypeCell PdType.tobj c = .ok (astypeOut PdType.tobj c) := by
  cases c <;> rfl

/-- On a well-formed table, `astype` succeeds on every column with the widened
target type computed from the post date-time-pass cells. -/
theorem astype_ok {t : DataTable} (hwf : WellFormed t) {j : Nat} (hj : j < t.cols.length) :
    exMapM (astypeCell (tyOut t j)) (dOut t j) = .ok (aOut t j) := by
  apply exMapM_ok_of_mem
  intro c hc
  have hty := wf_srcColumn hwf hj
  cases hdt : (t.cols.getD j defaultCol).dataType with
  | int64 =>
    have hcells : dOut t j = (srcColumn t j).map nullToNan := by
      unfold dOut
      rw [hdt]
      simp
    rw [hcells] at hc
    rw [List.mem_map] at hc
    obtain ⟨c0, hc0, rfl⟩ := hc
    have htyj : tyOut t j = widenType PdType.tint ((srcColumn t j).map nullToNan) := by
      unfold tyOut
      rw [hdt, hcells]
      rfl
    by_cases hany : ((srcColumn t j).map nullToNan).any isna = true
    · rw [htyj, widenType_tint_any hany]
      rcases cellTyped_int64 (hdt ▸ hty c0 hc0) with rfl | ⟨n, rfl⟩ <;> rfl
    · rw [htyj, widenType_tint_none (by simpa using hany)]
      rcases cellTyped_int64 (hdt ▸ hty c0 hc0) with rfl | ⟨n, rfl⟩
      · exfalso
        apply hany
        rw [List.any_eq_true]
        exact ⟨nullToNan DNCell.dbnull, List.mem_map.mpr ⟨DNCell.dbnull, hc0, rfl⟩, rfl⟩
      · rfl
  | double =>
    have hcells : dOut t j = (srcColumn t j).map nullToNan := by
      unfold dOut
      rw [hdt]
      simp
    rw [hcells] at hc
    rw [List.mem_map] at hc
    obtain ⟨c0, hc0, rfl⟩ := hc
    have htyj : tyOut t j = PdType.tfloat := by
      unfold tyOut
      rw [hdt]
      exact widenType_non_tint _ (by simp [typesMap])
    rw [htyj]
    rcases cellTyped_double (hdt ▸ hty c0 hc0) with rfl | ⟨b, rfl⟩ <;> rfl
  | string =>
    have htyj : tyOut t j = PdType.tstr := by
      unfold tyOut
      rw [hdt]
      exact widenType_non_tint _ (by simp [typesMap])
    rw [htyj]
    exact astypeCell_ok_tstr c
  | dateTime =>
    have htyj : tyOut t j = PdType.tobj := by
      unfold tyOut
      rw [hdt]
      exact widenType_non_tint _ (by simp [typesMap])
    rw [htyj]
    exact astypeCell_ok_tobj c
  | other =>
    have htyj : tyOut t j = PdType.tobj := by
      unfold tyOut
      rw [hdt]
      exact widenType_non_tint _ (by simp [typesMap])
    rw [htyj]
    exact astypeCell_ok_tobj c

/-- On a well-formed table none of whose date-time columns mixes missing and
present values, `_parse_DAX_result` succeeds and every column's dtype and
cells are as described by `tyOut` and `aOut`. -/
theorem parse_ok_of_wf {t : DataTable} (hwf : WellFormed t)
    (hun : ∀ j, j < t.cols.length →
      (t.cols.getD j defaultCol).dataType = DotNetType.dateTime →
      (∀ c ∈ srcColumn t j, c = DNCell.dbnull) ∨ (∀ c ∈ srcColumn t j, c ≠ DNCell.dbnull)) :
    parse_DAX_result t = .ok ⟨t.cols.map (fun c => c.name),
      (List.range t.cols.length).map (tyOut t),
      (List.range t.cols.length).map (aOut t)⟩ := by
  have hzlen : (t.cols.zip (df1 t)).length = t.cols.length := by
    simp [List.length_zip, length_df1]
  have hstep1 : exMapM dtPass (t.cols.zip (df1 t)) =
      .ok ((List.range t.cols.length).map (dOut t)) := by
    have h0 : ∀ i (hi : i < (t.cols.zip (df1 t)).length),
        dtPass ((t.cols.zip (df1 t))[i]) = .ok (dOut t i) := by
      intro i hi
      have hi2 : i < t.cols.length := by omega
      rw [List.getElem_zip, getElem_df1 t (by rw [length_df1]; exact hi2)]
      have hD := dtPass_ok hwf hi2 (hun i hi2)
      rw [List.getD_eq_getElem t.cols defaultCol hi2] at hD
      exact hD
    have h1 := exMapM_ok_of_out _ (dOut t) h0
    rw [hzlen] at h1
    exact h1
  have htys : colTypesOf t.cols ((List.range t.cols.length).map (dOut t)) =
      (List.range t.cols.length).map (tyOut t) := by
    apply List.ext_getElem
    · simp [colTypesOf, List.length_zip]
    · intro j h1 h2
      have hj : j < t.cols.length := by simpa using h2
      rw [getElem_colTypesOf h1 hj (by simpa using hj)]
      simp only [List.getElem_map, List.getElem_range]
      unfold tyOut
      rw [List.getD_eq_getElem t.cols defaultCol hj]
  have hstep3 : exMapM astypePass
      ((((List.range t.cols.length).map (tyOut t))).zip
        ((List.range t.cols.length).map (dOut t))) =
      .ok ((List.range t.cols.length).map (aOut t)) := by
    have hzlen2 : (((List.range t.cols.length).map (tyOut t)).zip
        ((List.range t.cols.length).map (dOut t))).length = t.cols.length := by
      simp [List.length_zip]
    have h0 : ∀ i (hi : i < (((List.range t.cols.length).map (tyOut t)).zip
        ((List.range t.cols.length).map (dOut t))).length),
        astypePass ((((List.range t.cols.length).map (tyOut t)).zip
          ((List.range t.cols.length).map (dOut t)))[i]) = .ok (aOut t i) := by
      intro i hi
      have hi2 : i < t.cols.length := by omega
      rw [List.getElem_zip]
      simp only [List.getElem_map, List.getElem_range]
      unfold astypePass
      exact astype_ok hwf hi2
    have h1 := exMapM_ok_of_out _ (aOut t) h0
    rw [hzlen2] at h1
    exact h1
  unfold parse_DAX_result
  split
  · rename_i e hE
    rw [hstep1] at hE
    cases hE
  · rename_i df2 hE
    rw [hstep1] at hE
    injection hE with hE
    subst hE
    rw [htys]
    split
    · rename_i e hE2
      rw [hstep3] at hE2
      cases hE2
    · rename_i df3 hE2
      rw [hstep3] at hE2
      injection hE2 with hE2
      subst hE2
      rfl

/-- `process_database`: delegates to `process_model` with `item_type="model"`,
leaving `item` at its Python default `None`. -/
def process_database (env : AMOEnv) (connection_string refresh_type db_name : String) :
    ProcOutcome :=
  process_model env connection_string db_name refresh_type "model" none

/-- `process_table`: delegates to `process_model` with `item_type="table"` and
the table name as `item`. -/
def process_table (env : AMOEnv) (connection_string table_name refresh_type db_name : String) :
    ProcOutcome :=
  process_model env connection_string db_name refresh_type "table" (some table_name)

/-! ## Claim theorems -/

/-- C1: for every TabularResult, in the ConvertedTable produced by
`_parse_DAX_result`, a column whose declared source type is 64-bit integer has
floating-point value type if and only if at least one cell in that column is
missing; when no cell is missing, the column retains integer representation
and every value is numerically equal to the corresponding source value. -/
theorem claim1_int_widening {t : DataTable} {frame : PdFrame} {j : Nat}
    (hok : parse_DAX_result t = .ok frame) (hj : j < t.cols.length)
    (hint : (t.cols.getD j defaultCol).dataType = DotNetType.int64) :
    (frame.colTypes.getD j PdType.tobj = PdType.tfloat ↔
      ∃ c ∈ srcColumn t j, c = DNCell.dbnull) ∧
    ((∀ c ∈ srcColumn t j, c ≠ DNCell.dbnull) →
      frame.colTypes.getD j PdType.tobj = PdType.tint ∧
      ∀ i, i < t.rows.length → ∃ n : Int,
        (t.rows.getD i []).getD j DNCell.dbnull = DNCell.int n ∧
        (frame.cols.getD j []).getD i PdCell.nan = PdCell.int n) := by
  obtain ⟨-, hlen2, hlen3, hcol⟩ := parse_ok_spec hok
  obtain ⟨dcol, hd, hty, ha⟩ := hcol j hj
  have hdcol : dcol = (srcColumn t j).map nullToNan := by
    unfold dtPass at hd
    rw [if_neg (by rw [hint]; simp)] at hd
    injection hd with hd
    exact hd.symm
  rw [hdcol] at hty ha
  rw [hint] at hty
  simp only [typesMap] at hty
  have hanyiff : ((srcColumn t j).map nullToNan).any isna = true ↔
      ∃ c ∈ srcColumn t j, c = DNCell.dbnull := by
    rw [List.any_eq_true]
    constructor
    · rintro ⟨x, hx, hisna⟩
      rw [List.mem_map] at hx
      obtain ⟨c, hc, rfl⟩ := hx
      exact ⟨c, hc, (isna_nullToNan c).mp hisna⟩
    · rintro ⟨c, hc, rfl⟩
      exact ⟨nullToNan DNCell.dbnull, List.mem_map.mpr ⟨DNCell.dbnull, hc, rfl⟩, rfl⟩
  constructor
  · constructor
    · intro hf
      by_contra hno
      have hany : ((srcColumn t j).map nullToNan).any isna = false := by
        rw [Bool.eq_false_iff]
        intro htrue
        exact hno (hanyiff.mp htrue)
      rw [widenType_tint_none hany] at hty
      rw [hty] at hf
      cases hf
    · intro hex
      rw [hty, widenType_tint_any (hanyiff.mpr hex)]
  · intro hno
    have hany : ((srcColumn t j).map nullToNan).any isna = false := by
      rw [Bool.eq_false_iff]
      intro htrue
      obtain ⟨c, hc, rfl⟩ := hanyiff.mp htrue
      exact hno _ hc rfl
    have htint : frame.colTypes.getD j PdType.tobj = PdType.tint := by
      rw [hty]
      exact widenType_tint_none hany
    refine ⟨htint, ?_⟩
    intro i hi
    rw [htint] at ha
    have hlenc : ((srcColumn t j).map nullToNan).length = t.rows.length := by
      simp [srcColumn]
    have hlenf : (frame.cols.getD j []).length = t.rows.length := by
      rw [exMapM_ok_length ha, hlenc]
    have hi1 : i < ((srcColumn t j).map nullToNan).length := by omega
    have hi2 : i < (frame.cols.getD j []).length := by omega
    have hcell := exMapM_ok_getElem ha i hi1 hi2
    simp only [List.getElem_map, srcColumn] at hcell
    have hmem : t.rows[i].getD j DNCell.dbnull ∈ srcColumn t j := by
      rw [List.mem_iff_getElem]
      refine ⟨i, by simp [srcColumn]; omega, ?_⟩
      simp [srcColumn]
    have hne := hno _ hmem
    cases hcc : t.rows[i].getD j DNCell.dbnull with
    | dbnull => exact absurd hcc hne
    | int n =>
      rw [hcc] at hcell
      refine ⟨n, ?_, ?_⟩
      · rw [List.getD_eq_getElem t.rows [] hi]
        exact hcc
      · rw [List.getD_eq_getElem _ PdCell.nan hi2]
        have hstep : astypeCell PdType.tint (nullToNan (DNCell.int n)) = .ok (.int n) := rfl
        rw [hstep] at hcell
        injection hcell with hcell
        exact hcell.symm
    | dbl b => rw [hcc] at hcell; simp [nullToNan, astypeCell] at hcell
    | str s => rw [hcc] at hcell; simp [nullToNan, astypeCell] at hcell
    | dt d => rw [hcc] at hcell; simp [nullToNan, astypeCell] at hcell
    | other o => rw [hcc] at hcell; simp [nullToNan, astypeCell] at hcell

/-- Concrete table for the C1 witness: two integer columns, one with and one
without a missing value. -/
def c1tbl : DataTable :=
  ⟨[⟨"a", DotNetType.int64⟩, ⟨"b", DotNetType.int64⟩],
   [[DNCell.int 1, DNCell.dbnull], [DNCell.int 2, DNCell.int 5]]⟩

/-- Converted frame of `c1tbl`. -/
def c1frame : PdFrame :=
  ⟨["a", "b"], [PdType.tint, PdType.tfloat],
   [[PdCell.int 1, PdCell.int 2], [PdCell.nan, PdCell.float (PFloat.ofInt 5)]]⟩

theorem claim1_int_widening_witness :
    parse_DAX_result c1tbl = .ok c1frame ∧
    ((c1frame.colTypes.getD 0 PdType.tobj = PdType.tfloat ↔
        ∃ c ∈ srcColumn c1tbl 0, c = DNCell.dbnull) ∧
      ((∀ c ∈ srcColumn c1tbl 0, c ≠ DNCell.dbnull) →
        c1frame.colTypes.getD 0 PdType.tobj = PdType.tint ∧
        ∀ i, i < c1tbl.rows.length → ∃ n : Int,
          (c1tbl.rows.getD i []).getD 0 DNCell.dbnull = DNCell.int n ∧
          (c1frame.cols.getD 0 []).getD i PdCell.nan = PdCell.int n)) :=
  ⟨by decide, claim1_int_widening (by decide) (by decide) (by decide)⟩

/-- Failing input for C2: a date-time column holding one missing and one
present value. -/
def c2tbl : DataTable :=
  ⟨[⟨"d", DotNetType.dateTime⟩],
   [[DNCell.dbnull], [DNCell.dt ⟨2017, 9, 20, 16, 59, 43, 0⟩]]⟩

/-- C2 (evaluation at the failing input): the claim says that a date-time
column with at least one non-missing value converts successfully even when
some cells are missing; on this well-formed two-row input the code instead
raises `AttributeError`, because `Series.map` with its default `na_action`
passes the NaN cell to the `ToString` lambda and a float has no `ToString`
attribute. -/
theorem claim2_mixed_datetime_raises :
    WellFormed c2tbl ∧ parse_DAX_result c2tbl = .error PdErr.attributeError := by
  decide

/-- Counterexample input for C4: one string-declared column with a single
DBNull cell. -/
def c4xtbl : DataTable := ⟨[⟨"s", DotNetType.string⟩], [[DNCell.dbnull]]⟩

/-- C4 counterexample: on a well-formed table with a string column whose only
cell is DBNull, the converted cell is the literal string "nan" produced by
`astype(str)`, not the missing-value marker, refuting the claim for string
columns. -/
theorem claim4_counterexample :
    WellFormed c4xtbl ∧
    parse_DAX_result c4xtbl = .ok ⟨["s"], [PdType.tstr], [[PdCell.pstr "nan"]]⟩ ∧
    PdCell.pstr "nan" ≠ PdCell.nan := by
  decide

/-- C4 (amended): in a produced ConvertedTable, every source DBNull cell of a
column declared Int64, Double, DateTime or other becomes the missing-value
marker; in a column declared String it instead becomes the literal string
"nan" (the stringified missing marker). -/
theorem claim4_amended_null_handling {t : DataTable} {frame : PdFrame} {i j : Nat}
    (hok : parse_DAX_result t = .ok frame) (hi : i < t.rows.length) (hj : j < t.cols.length)
    (hnull : (t.rows.getD i []).getD j DNCell.dbnull = DNCell.dbnull) :
    ((t.cols.getD j defaultCol).dataType ≠ DotNetType.string →
      (frame.cols.getD j []).getD i PdCell.nan = PdCell.nan) ∧
    ((t.cols.getD j defaultCol).dataType = DotNetType.string →
      (frame.cols.getD j []).getD i PdCell.nan = PdCell.pstr "nan") := by
  obtain ⟨-, hl2, hl3, hcol⟩ := parse_ok_spec hok
  obtain ⟨dcol, hd, hty, ha⟩ := hcol j hj
  rw [List.getD_eq_getElem t.rows [] hi] at hnull
  have hsl : (srcColumn t j).length = t.rows.length := by simp [srcColumn]
  have hi1 : i < (srcColumn t j).length := by omega
  have hsrci : (srcColumn t j)[i] = DNCell.dbnull := by
    simp only [srcColumn, List.getElem_map]
    exact hnull
  have hi1m : i < ((srcColumn t j).map nullToNan).length := by simp; omega
  have hnanmem : PdCell.nan ∈ (srcColumn t j).map nullToNan := by
    rw [List.mem_iff_getElem]
    refine ⟨i, hi1m, ?_⟩
    simp only [List.getElem_map, hsrci]
    rfl
  have hdcol : dcol = (srcColumn t j).map nullToNan := by
    unfold dtPass at hd
    by_cases hdt : (t.cols.getD j defaultCol).dataType = DotNetType.dateTime
    · rw [if_pos hdt] at hd
      unfold convertDtColumn at hd
      by_cases hall : ((srcColumn t j).map nullToNan).all (fun c => isna c) = true
      · rw [if_pos hall] at hd
        injection hd with hd
        exact hd.symm
      · rw [if_neg hall] at hd
        exfalso
        have hnotok : ∀ ys, exMapM toString_s ((srcColumn t j).map nullToNan) ≠ .ok ys :=
          exMapM_not_ok hnanmem (fun y hy => by cases hy)
        cases hE : exMapM toString_s ((srcColumn t j).map nullToNan) with
        | error e => rw [hE] at hd; cases hd
        | ok strs => exact hnotok strs hE
    · rw [if_neg hdt] at hd
      injection hd with hd
      exact hd.symm
  rw [hdcol] at hty ha
  have hlenf : (frame.cols.getD j []).length = t.rows.length := by
    rw [exMapM_ok_length ha]
    simp [srcColumn]
  have hi2 : i < (frame.cols.getD j []).length := by omega
  have hcell := exMapM_ok_getElem ha i hi1m hi2
  simp only [List.getElem_map, hsrci] at hcell
  have hfinish : ∀ v : PdCell,
      astypeCell (frame.colTypes.getD j PdType.tobj) PdCell.nan = .ok v →
      (frame.cols.getD j []).getD i PdCell.nan = v := by
    intro v hv
    have hnn : nullToNan DNCell.dbnull = PdCell.nan := rfl
    rw [hnn, hv] at hcell
    injection hcell with hcell
    rw [List.getD_eq_getElem _ PdCell.nan hi2]
    exact hcell.symm
  have hany : ((srcColumn t j).map nullToNan).any isna = true :=
    List.any_eq_true.mpr ⟨PdCell.nan, hnanmem, rfl⟩
  constructor
  · intro hns
    apply hfinish
    cases hdt : (t.cols.getD j defaultCol).dataType with
    | int64 =>
      rw [hdt] at hty
      simp only [typesMap] at hty
      rw [widenType_tint_any hany] at hty
      rw [hty]
      rfl
    | double =>
      rw [hdt] at hty
      simp only [typesMap] at hty
      rw [widenType_non_tint _ (by simp)] at hty
      rw [hty]
      rfl
    | string => exact absurd hdt hns
    | dateTime =>
      rw [hdt] at hty
      simp only [typesMap] at hty
      rw [widenType_non_tint _ (by simp)] at hty
      rw [hty]
      rfl
    | other =>
      rw [hdt] at hty
      simp only [typesMap] at hty
      rw [widenType_non_tint _ (by simp)] at hty
      rw [hty]
      rfl
  · intro hs
    apply hfinish
    rw [hs] at hty
    simp only [typesMap] at hty
    rw [widenType_non_tint _ (by simp)] at hty
    rw [hty]
    rfl

/-- Concrete table for the C4 witness: one column of each declared type, one
row, every cell DBNull. -/
def c4wtbl : DataTable :=
  ⟨[⟨"a", DotNetType.int64⟩, ⟨"b", DotNetType.double⟩, ⟨"c", DotNetType.string⟩,
    ⟨"d", DotNetType.dateTime⟩, ⟨"e", DotNetType.other⟩],
   [[DNCell.dbnull, DNCell.dbnull, DNCell.dbnull, DNCell.dbnull, DNCell.dbnull]]⟩

/-- Converted frame of `c4wtbl`. -/
def c4wframe : PdFrame :=
  ⟨["a", "b", "c", "d", "e"],
   [PdType.tfloat, PdType.tfloat, PdType.tstr, PdType.tobj, PdType.tobj],
   [[PdCell.nan], [PdCell.nan], [PdCell.pstr "nan"], [PdCell.nan], [PdCell.nan]]⟩

theorem claim4_amended_null_handling_witness :
    parse_DAX_result c4wtbl = .ok c4wframe ∧
    (((c4wtbl.cols.getD 0 defaultCol).dataType ≠ DotNetType.string →
        (c4wframe.cols.getD 0 []).getD 0 PdCell.nan = PdCell.nan) ∧
      ((c4wtbl.cols.getD 0 defaultCol).dataType = DotNetType.string →
        (c4wframe.cols.getD 0 []).getD 0 PdCell.nan = PdCell.pstr "nan")) ∧
    (((c4wtbl.cols.getD 2 defaultCol).dataType ≠ DotNetType.string →
        (c4wframe.cols.getD 2 []).getD 0 PdCell.nan = PdCell.nan) ∧
      ((c4wtbl.cols.getD 2 defaultCol).dataType = DotNetType.string →
        (c4wframe.cols.getD 2 []).getD 0 PdCell.nan = PdCell.pstr "nan")) :=
  ⟨by decide,
   claim4_amended_null_handling (by decide) (by decide) (by decide) (by decide),
   claim4_amended_null_handling (by decide) (by decide) (by decide) (by decide)⟩

/-- Counterexample input for C5: column "a" is a date-time column that is
entirely missing, but the table also has a second date-time column mixing a
missing with a present value. -/
def c5xtbl : DataTable :=
  ⟨[⟨"a", DotNetType.dateTime⟩, ⟨"b", DotNetType.dateTime⟩],
   [[DNCell.dbnull, DNCell.dbnull],
    [DNCell.dbnull, DNCell.dt ⟨2018, 1, 2, 3, 4, 5, 0⟩]]⟩

/-- C5 counterexample: a well-formed TabularResult containing an entirely
missing date-time column on which `_parse_DAX_result` nevertheless raises —
the error comes from the second, partially missing date-time column — so the
claim quantified over every such TabularResult is false. -/
theorem claim5_counterexample :
    WellFormed c5xtbl ∧
    (c5xtbl.cols.getD 0 defaultCol).dataType = DotNetType.dateTime ∧
    (∀ c ∈ srcColumn c5xtbl 0, c = DNCell.dbnull) ∧
    parse_DAX_result c5xtbl = .error PdErr.attributeError := by
  decide

/-- C5 (amended): on a well-formed TabularResult none of whose date-time
columns mixes missing and present values, a date-time column all of whose
cells are missing does not make `_parse_DAX_result` raise: the run succeeds,
the column is skipped by the string-conversion pass, keeps the object dtype
and stays fully missing. -/
theorem claim5_amended_all_missing_datetime {t : DataTable} {j : Nat}
    (hwf : WellFormed t)
    (hun : ∀ j2, j2 < t.cols.length →
      (t.cols.getD j2 defaultCol).dataType = DotNetType.dateTime →
      (∀ c ∈ srcColumn t j2, c = DNCell.dbnull) ∨ (∀ c ∈ srcColumn t j2, c ≠ DNCell.dbnull))
    (hj : j < t.cols.length)
    (hdt : (t.cols.getD j defaultCol).dataType = DotNetType.dateTime)
    (hmiss : ∀ c ∈ srcColumn t j, c = DNCell.dbnull) :
    ∃ frame, parse_DAX_result t = .ok frame ∧
      frame.colTypes.getD j PdType.tobj = PdType.tobj ∧
      frame.cols.getD j [] = List.replicate t.rows.length PdCell.nan := by
  have htyj : tyOut t j = PdType.tobj := by
    unfold tyOut
    rw [hdt]
    exact widenType_non_tint _ (by simp [typesMap])
  have hcellsnan : (srcColumn t j).map nullToNan = List.replicate t.rows.length PdCell.nan := by
    rw [List.eq_replicate_iff]
    constructor
    · simp [srcColumn]
    · intro b hb
      rw [List.mem_map] at hb
      obtain ⟨c, hc, rfl⟩ := hb
      rw [hmiss c hc]
      rfl
  have hdO : dOut t j = List.replicate t.rows.length PdCell.nan := by
    unfold dOut
    rw [if_pos hdt]
    unfold dtColOut
    rw [hcellsnan]
    rw [if_pos ?_]
    rw [List.all_eq_true]
    intro x hx
    rw [List.eq_of_mem_replicate hx]
    rfl
  refine ⟨_, parse_ok_of_wf hwf hun, ?_, ?_⟩
  · rw [List.getD_eq_getElem _ _ (by simp [hj])]
    simp only [List.getElem_map, List.getElem_range]
    exact htyj
  · rw [List.getD_eq_getElem _ _ (by simp [hj])]
    simp only [List.getElem_map, List.getElem_range]
    unfold aOut
    rw [hdO, htyj, List.map_replicate]
    rfl

/-- Concrete table for the C5 witness: an entirely missing date-time column
next to an integer column. -/
def c5wtbl : DataTable :=
  ⟨[⟨"d", DotNetType.dateTime⟩, ⟨"a", DotNetType.int64⟩],
   [[DNCell.dbnull, DNCell.int 7], [DNCell.dbnull, DNCell.int 8]]⟩

theorem claim5_amended_all_missing_datetime_witness :
    ∃ frame, parse_DAX_result c5wtbl = .ok frame ∧
      frame.colTypes.getD 0 PdType.tobj = PdType.tobj ∧
      frame.cols.getD 0 [] = List.replicate c5wtbl.rows.length PdCell.nan :=
  claim5_amended_all_missing_datetime (by decide) (by decide) (by decide) (by decide)
    (by decide)

/-- Helper for zero-row tables: mapping a constant over `range` of the length
of a list is mapping it over the list. -/
theorem range_map_const_eq {α β : Type} (l : List α) (b : β) :
    (List.range l.length).map (fun _ => b) = l.map (fun _ => b) := by
  apply List.ext_getElem <;> simp

/-- C6: for every TabularResult with zero rows, `_parse_DAX_result` returns a
ConvertedTable with the same column names in the same order, zero rows in
every column, and raises no error during type assignment or widening; each
column keeps its unwidened mapped dtype. -/
theorem claim6_zero_rows {t : DataTable} (h : t.rows = []) :
    parse_DAX_result t = .ok ⟨t.cols.map (fun c => c.name),
      t.cols.map (fun c => typesMap c.dataType),
      t.cols.map (fun _ => ([] : List PdCell))⟩ := by
  have hsrc : ∀ j, srcColumn t j = [] := fun j => by simp [srcColumn, h]
  have hzlen : (t.cols.zip (df1 t)).length = t.cols.length := by
    simp [List.length_zip, length_df1]
  have hstep1 : exMapM dtPass (t.cols.zip (df1 t)) =
      .ok ((List.range t.cols.length).map fun _ => ([] : List PdCell)) := by
    have h0 : ∀ i (hi : i < (t.cols.zip (df1 t)).length),
        dtPass ((t.cols.zip (df1 t))[i]) = .ok ([] : List PdCell) := by
      intro i hi
      have hi2 : i < t.cols.length := by omega
      rw [List.getElem_zip, getElem_df1 t (by rw [length_df1]; exact hi2), hsrc]
      by_cases hdtc : (t.cols[i]).dataType = DotNetType.dateTime
      · unfold dtPass
        rw [if_pos hdtc]
        rfl
      · unfold dtPass
        rw [if_neg hdtc]
        rfl
    have h1 := exMapM_ok_of_out _ (fun _ => ([] : List PdCell)) h0
    rw [hzlen] at h1
    exact h1
  have htys : colTypesOf t.cols ((List.range t.cols.length).map fun _ => ([] : List PdCell)) =
      t.cols.map (fun c => typesMap c.dataType) := by
    apply List.ext_getElem
    · simp [colTypesOf, List.length_zip]
    · intro j h1 h2
      have hj : j < t.cols.length := by simpa using h2
      rw [getElem_colTypesOf h1 hj (by simpa using hj)]
      simp only [List.getElem_map, List.getElem_range]
      rw [widenType_nil]
  have hstep3 : exMapM astypePass
      ((t.cols.map (fun c => typesMap c.dataType)).zip
        ((List.range t.cols.length).map fun _ => ([] : List PdCell))) =
      .ok ((List.range t.cols.length).map fun _ => ([] : List PdCell)) := by
    have hzl2 : ((t.cols.map (fun c => typesMap c.dataType)).zip
        ((List.range t.cols.length).map fun _ => ([] : List PdCell))).length =
        t.cols.length := by
      simp [List.length_zip]
    have h0 : ∀ i (hi : i < ((t.cols.map (fun c => typesMap c.dataType)).zip
        ((List.range t.cols.length).map fun _ => ([] : List PdCell))).length),
        astypePass (((t.cols.map (fun c => typesMap c.dataType)).zip
          ((List.range t.cols.length).map fun _ => ([] : List PdCell)))[i]) =
        .ok ([] : List PdCell) := by
      intro i hi
      rw [List.getElem_zip]
      simp only [List.getElem_map, List.getElem_range]
      rfl
    have h1 := exMapM_ok_of_out _ (fun _ => ([] : List PdCell)) h0
    rw [hzl2] at h1
    exact h1
  unfold parse_DAX_result
  split
  · rename_i e hE
    rw [hstep1] at hE
    cases hE
  · rename_i df2 hE
    rw [hstep1] at hE
    injection hE with hE
    subst hE
    rw [htys]
    split
    · rename_i e hE2
      rw [hstep3] at hE2
      cases hE2
    · rename_i df3 hE2
      rw [hstep3] at hE2
      injection hE2 with hE2
      subst hE2
      rw [range_map_const_eq]

/-- Concrete table for the C6 witness: two columns, zero rows. -/
def c6tbl : DataTable := ⟨[⟨"a", DotNetType.int64⟩, ⟨"d", DotNetType.dateTime⟩], []⟩

theorem claim6_zero_rows_witness :
    parse_DAX_result c6tbl = .ok ⟨c6tbl.cols.map (fun c => c.name),
      c6tbl.cols.map (fun c => typesMap c.dataType),
      c6tbl.cols.map (fun _ => ([] : List PdCell))⟩ :=
  claim6_zero_rows (by decide)

/-- C3 counterexample: with every client call succeeding except `SaveChanges`,
`process_model` propagates the error with the connection still open — the
disconnect step is skipped, refuting the claim that it runs on every exit
path. -/
theorem claim3_counterexample :
    process_model ⟨true, true, true, true, false, false⟩ ("cs") ("db") ("full") ("model") none =
      ⟨.error ProcErr.saveError, true, true⟩ := by
  decide

/-- C3 (amended): `process_model` executes its disconnect step only on the
fully successful path; when any step after a successful `Connect` raises —
in particular `RequestRefresh` or `SaveChanges` — the error propagates with
the connection still open. -/
theorem claim3_amended_disconnect (env : AMOEnv) (cs db rt it : String)
    (item : Option String) :
    ((process_model env cs db rt it item).result = .ok () →
      (process_model env cs db rt it item).connected = false) ∧
    (env.connectOk = true → (process_model env cs db rt it item).connectCalled = true →
      (process_model env cs db rt it item).result ≠ .ok () →
      (process_model env cs db rt it item).connected = true) := by
  unfold process_model
  by_cases h1 : (pyLower it = "table" ∨ pyLower it = "model")
  · rw [if_neg (not_not_intro h1)]
    by_cases h2 : (pyLower it = "table" ∧ pyFalsy item = true)
    · rw [if_pos h2]
      simp
    · rw [if_neg h2]
      by_cases h3 : env.connectOk = true
      · rw [if_neg (not_not_intro h3)]
        by_cases h4 : env.dbFound = true
        · rw [if_neg (not_not_intro h4)]
          by_cases h5 : pyLower it = "table"
          · rw [if_pos h5]
            by_cases h6 : env.tableFound = true
            · rw [if_neg (not_not_intro h6)]
              by_cases h7 : rt = "full"
              · rw [if_neg (not_not_intro h7)]
                by_cases h8 : env.refreshOk = true
                · rw [if_neg (not_not_intro h8)]
                  by_cases h9 : env.saveOk = true
                  · rw [if_neg (not_not_intro h9)]
                    simp
                  · rw [if_pos h9]
                    simp
                · rw [if_pos h8]
                  simp
              · rw [if_pos h7]
                simp
            · rw [if_pos h6]
              simp
          · rw [if_neg h5]
            by_cases h7 : rt = "full"
            · rw [if_neg (not_not_intro h7)]
              by_cases h8 : env.refreshOk = true
              · rw [if_neg (not_not_intro h8)]
                by_cases h9 : env.saveOk = true
                · rw [if_neg (not_not_intro h9)]
                  simp
                · rw [if_pos h9]
                  simp
              · rw [if_pos h8]
                simp
            · rw [if_pos h7]
              simp
        · rw [if_pos h4]
          simp
      · rw [if_pos h3]
        simp_all
  · rw [if_pos h1]
    simp

theorem claim3_amended_disconnect_witness :
    (process_model ⟨true, true, true, false, true, false⟩ ("cs") ("db") ("full") ("model")
      none).connected = true :=
  (claim3_amended_disconnect ⟨true, true, true, false, true, false⟩ ("cs") ("db") ("full")
    ("model") none).2 rfl (by decide) (by decide)

/-- C7: `process_model` with `item_type` case-insensitively equal to "table"
and a missing or empty item name raises the missing-argument `ValueError`
before `Connect` is ever attempted, and `process_model` with an `item_type`
that is case-insensitively neither "model" nor "table" fails the assertion
before `Connect` is ever attempted. -/
theorem claim7_argument_errors (env : AMOEnv) (cs db rt it : String)
    (item : Option String) :
    (pyLower it = "table" → pyFalsy item = true →
      process_model env cs db rt it item = ⟨.error ProcErr.valueError, false, false⟩) ∧
    (pyLower it ≠ "table" → pyLower it ≠ "model" →
      process_model env cs db rt it item = ⟨.error ProcErr.assertionError, false, false⟩) := by
  unfold process_model
  constructor <;> intro h1 h2 <;> split_ifs <;> simp_all

theorem claim7_argument_errors_witness :
    pyLower ("Table") = "table" ∧ pyFalsy (some "") = true ∧
    process_model ⟨true, true, true, true, true, true⟩ ("c") ("db") ("full") ("Table")
      (some "") = ⟨.error ProcErr.valueError, false, false⟩ ∧
    process_model ⟨true, true, true, true, true, true⟩ ("c") ("db") ("full") ("xx")
      none = ⟨.error ProcErr.assertionError, false, false⟩ :=
  ⟨by decide, by decide,
   (claim7_argument_errors ⟨true, true, true, true, true, true⟩ ("c") ("db") ("full")
     ("Table") (some "")).1 (by decide) (by decide),
   (claim7_argument_errors ⟨true, true, true, true, true, true⟩ ("c") ("db") ("full")
     ("xx") none).2 (by decide) (by decide)⟩

/-- C9: the two revisions' date-time conversions are not equivalent: for every
valid `System.DateTime` value, the older revision converts through the short
date string and yields the date-only timestamp with the time of day discarded,
while the current revision converts through the sortable round-trip string and
preserves the full value to second precision; the two results differ whenever
the time of day is nonzero. -/
theorem claim9_datetime_paths_differ :
    (∀ d : DNDateTime, d.Valid →
      oldConvertCell (DNCell.dt d) = .ok (OldCell.ts ⟨d.year, d.month, d.day, 0, 0, 0, 0⟩) ∧
      convertDtColumn [PdCell.raw (DNCell.dt d)] =
        .ok [PdCell.ts ⟨d.year, d.month, d.day, d.hour, d.minute, d.second, 0⟩]) ∧
    (∃ d : DNDateTime, d.Valid ∧
      (⟨d.year, d.month, d.day, 0, 0, 0, 0⟩ : DNDateTime) ≠
        ⟨d.year, d.month, d.day, d.hour, d.minute, d.second, 0⟩) := by
  constructor
  · intro d hv
    constructor
    · simp [oldConvertCell, pdTimestampShort_toShortDateString hv]
    · have h1 : exMapM toString_s [PdCell.raw (DNCell.dt d)] = .ok [sortableString d] := rfl
      have h2 : exMapM pd_to_datetime1 [sortableString d] =
          .ok [PdCell.ts ⟨d.year, d.month, d.day, d.hour, d.minute, d.second, 0⟩] := by
        simp [exMapM, pd_to_datetime1, parseSortable_sortableString hv]
      simp [convertDtColumn, isna, h1, h2]
  · exact ⟨⟨2017, 9, 20, 16, 59, 43, 0⟩, by decide, by decide⟩

/-- The concrete date-time used in the C9 witness. -/
def c9d : DNDateTime := ⟨2017, 9, 20, 16, 59, 43, 0⟩

theorem claim9_datetime_paths_differ_witness :
    c9d.Valid ∧
    oldConvertCell (DNCell.dt c9d) = .ok (OldCell.ts ⟨2017, 9, 20, 0, 0, 0, 0⟩) ∧
    convertDtColumn [PdCell.raw (DNCell.dt c9d)] =
      .ok [PdCell.ts ⟨2017, 9, 20, 16, 59, 43, 0⟩] :=
  ⟨by decide, (claim9_datetime_paths_differ.1 c9d (by decide)).1,
   (claim9_datetime_paths_differ.1 c9d (by decide)).2⟩

/-- C10: the wrappers add no behaviour of their own: `process_table` is
exactly `process_model` with `item_type="table"` and the table name as item,
and `process_database` is exactly `process_model` with `item_type="model"`
and the item left at its default `None`. -/
theorem claim10_wrappers_delegate (env : AMOEnv) (cs tn rt db : String) :
    process_table env cs tn rt db = process_model env cs db rt ("table") (some tn) ∧
    process_database env cs rt db = process_model env cs db rt ("model") none :=
  ⟨rfl, rfl⟩

/-- C8 counterexample: when the username itself embeds the data-source
pattern, the connection string contains two occurrences of
"Data Source=" followed by the server value, so "exactly one occurrence for
all input strings" is false. -/
theorem claim8_counterexample :
    countOccs (("Data Source=x").data)
        (set_conn_string (("x").data) (("d").data) (("Data Source=x").data)
          (("p").data)) = 2 ∧
    countOccs (("Data Source=x").data)
        (set_conn_string (("x").data) (("d").data) (("Data Source=x").data)
          (("p").data)) ≠ 1 := by
  decide

theorem connString_split1 :
    ("Provider=MSOLAP;Data Source=").data =
      ("Provider=MSOLAP;").data ++ ("Data Source=").data := rfl

theorem connString_split2 :
    (";Initial Catalog=").data = (";").data ++ ("Initial Catalog=").data := rfl

theorem connString_split3 :
    (";User ID=").data = (";").data ++ ("User ID=").data := rfl

theorem connString_split4 :
    (";Password=").data = (";").data ++ ("Password=").data := rfl

/-- C8 (amended): for all input strings the connection string contains at
least one occurrence of each of the four key/value substrings — pure template
substitution — and for inputs that do not themselves embed one of the
patterns, such as the spec's example inputs "S", "D", "U", "P", each occurs
exactly once. -/
theorem claim8_amended_conn_string :
    (∀ s d u p : List Char,
      (∃ a b, set_conn_string s d u p = a ++ ("Data Source=").data ++ s ++ b) ∧
      (∃ a b, set_conn_string s d u p = a ++ ("Initial Catalog=").data ++ d ++ b) ∧
      (∃ a b, set_conn_string s d u p = a ++ ("User ID=").data ++ u ++ b) ∧
      (∃ a b, set_conn_string s d u p = a ++ ("Password=").data ++ p ++ b)) ∧
    (countOccs (("Data Source=S").data)
        (set_conn_string (("S").data) (("D").data) (("U").data) (("P").data)) = 1 ∧
      countOccs (("Initial Catalog=D").data)
        (set_conn_string (("S").data) (("D").data) (("U").data) (("P").data)) = 1 ∧
      countOccs (("User ID=U").data)
        (set_conn_string (("S").data) (("D").data) (("U").data) (("P").data)) = 1 ∧
      countOccs (("Password=P").data)
        (set_conn_string (("S").data) (("D").data) (("U").data) (("P").data)) = 1) := by
  constructor
  · intro s d u p
    refine ⟨⟨("Provider=MSOLAP;").data,
        (";Initial Catalog=").data ++ d ++ (";User ID=").data ++ u ++
          (";Password=").data ++ p ++
          (";Persist Security Info=True;Impersonation Level=Impersonate").data, ?_⟩,
      ⟨("Provider=MSOLAP;Data Source=").data ++ s ++ (";").data,
        (";User ID=").data ++ u ++ (";Password=").data ++ p ++
          (";Persist Security Info=True;Impersonation Level=Impersonate").data, ?_⟩,
      ⟨("Provider=MSOLAP;Data Source=").data ++ s ++ (";Initial Catalog=").data ++ d ++
          (";").data,
        (";Password=").data ++ p ++
          (";Persist Security Info=True;Impersonation Level=Impersonate").data, ?_⟩,
      ⟨("Provider=MSOLAP;Data Source=").data ++ s ++ (";Initial Catalog=").data ++ d ++
          (";User ID=").data ++ u ++ (";").data,
        (";Persist Security Info=True;Impersonation Level=Impersonate").data, ?_⟩⟩ <;>
      simp [set_conn_string, connString_split1, connString_split2, connString_split3,
        connString_split4, List.append_assoc]
  · refine ⟨?_, ?_, ?_, ?_⟩ <;> decide

end PySsas
